import Mathlib

/-!
# Verification of `picdescbot/common.py`

A shallow embedding of the picture/description pipeline of picdescbot.
Python strings are modelled as lists of characters (`Str`); `str.lower()`
is modelled by `Char.toLower` (ASCII case folding, which covers every
string the program manipulates); `str.split()` (split on whitespace runs,
dropping empty pieces) and `' '.join` are modelled by `pySplit` and
`joinSpaces`.  HTTP interaction is modelled by passing the finite list of
responses the remote server would produce; running out of scripted
responses while a loop would issue another request is reported by a
dedicated `outOfScript` outcome.
-/

/-- Python strings, modelled as lists of characters. -/
abbrev Str := List Char

/-- `s.lower()` (ASCII model). -/
def lowerStr (s : Str) : Str := s.map Char.toLower

/-- `needle.isPrefixOf haystack` written out explicitly over `Str`. -/
def startsWith : Str → Str → Bool
  | [], _ => true
  | _ :: _, [] => false
  | a :: as, b :: bs => a == b && startsWith as bs

/-- Python `needle in haystack` (substring containment). -/
def isSubstr (needle : Str) : Str → Bool
  | [] => startsWith needle []
  | h :: t => startsWith needle (h :: t) || isSubstr needle t

/-- `haystack.endswith(suf)`. -/
def endsWith (suf l : Str) : Bool := startsWith suf.reverse l.reverse

/-- The `wordfilter` library state: a list of blacklisted words
(`word_filter.add_words(['nazi'])` in the source extends it).
Modelled from the spec: "case-insensitive substring/word match against a
configurable mapping of banned terms" (the library itself is a dependency,
not part of this repository). -/
structure Wordfilter where
  blacklist : List Str
deriving DecidableEq

/-- `word_filter.blacklisted(text)`: some blacklisted word occurs in
`text.lower()` as a substring. -/
def Wordfilter.blacklisted (wf : Wordfilter) (text : Str) : Bool :=
  wf.blacklist.any (fun w => isSubstr w (lowerStr text))

/-- `category_blacklist = ['september 11']` (common.py line 23). -/
def category_blacklist : List Str := [("september 11").data]

/-- `supported_formats = re.compile('\.(png|jpe?g|gif)$', re.I)`, used via
`.search`: the URL must end, case-insensitively, in one of the four
extensions (common.py line 20). -/
def supported_formats (url : Str) : Bool :=
  endsWith (".png").data (lowerStr url) || endsWith (".jpg").data (lowerStr url) ||
  endsWith (".jpeg").data (lowerStr url) || endsWith (".gif").data (lowerStr url)

/-- The `imageinfo[0]` record of a page returned by the MediaWiki API,
with the fields the program reads. -/
structure ImageInfo where
  url : Str
  thumburl : Str
  size : Nat
  width : Nat
  height : Nat
  mediatype : Str
  descriptionshorturl : Str
deriving DecidableEq

/-- One entry of `page['categories']`.  The code reads both
`category['title']` (for the check) and `category['name']` (in the log
line), so the model carries both fields. -/
structure Category where
  title : Str
  name : Str
deriving DecidableEq

/-- The single page record of the MediaWiki response that
`get_random_picture` inspects: `page['title']`, the two `extmetadata`
values, the category list and `imageinfo[0]`. -/
structure Page where
  title : Str
  objectName : Str
  restrictions : Str
  categories : List Category
  imageinfo : ImageInfo
deriving DecidableEq

/-- `get_random_picture()` (common.py lines 48-96), with the HTTP response
already parsed into `page` and the global `word_filter` passed explicitly.
Returns `none` exactly when the candidate is rejected by one of the seven
filters, in source order. -/
def get_random_picture (wf : Wordfilter) (page : Page) : Option ImageInfo :=
  if wf.blacklisted page.title then none
  else if wf.blacklisted page.objectName then none
  else if wf.blacklisted page.restrictions then none
  else if page.categories.any
      (fun cat => category_blacklist.any
        (fun bc => isSubstr bc (lowerStr cat.title))) then none
  else if page.imageinfo.mediatype ≠ ("BITMAP").data then none
  else if page.imageinfo.width ≤ 50 ∨ page.imageinfo.height ≤ 50 then none
  else if ¬ supported_formats page.imageinfo.url then none
  else some page.imageinfo

/-- The `gendered_words` dict lookup (common.py lines 29-32), written as
the chain of key comparisons the dict membership test performs. -/
def substGendered (w : Str) : Str :=
  if w = ("woman").data then ("person").data
  else if w = ("man").data then ("person").data
  else if w = ("women").data then ("people").data
  else if w = ("men").data then ("people").data
  else w

/-- Worker for `pySplit`: `acc` is the chunk of non-whitespace characters
read since the last break. -/
def pySplitAux : Str → Str → List Str
  | acc, [] => if acc = [] then [] else [acc]
  | acc, c :: rest =>
    if c.isWhitespace then
      if acc = [] then pySplitAux [] rest
      else acc :: pySplitAux [] rest
    else pySplitAux (acc ++ [c]) rest

/-- Python `str.split()` with no argument: split on runs of whitespace,
discarding empty pieces. -/
def pySplit (s : Str) : List Str := pySplitAux [] s

/-- `' '.join(tokens)`. -/
def joinSpaces : List Str → Str
  | [] => []
  | [t] => t
  | t :: t' :: ts => t ++ ' ' :: joinSpaces (t' :: ts)

/-- `gender_neutralize(phrase)` (common.py lines 35-45): lower-case the
phrase, split on whitespace, replace each token found in `gendered_words`,
and rejoin with single spaces.  (The `print` on change is a side effect
with no influence on the returned value.) -/
def gender_neutralize (phrase : Str) : Str :=
  joinSpaces ((pySplit (lowerStr phrase)).map substGendered)

example : gender_neutralize ("a woman and two men").data
    = ("a person and two people").data := by decide
example : gender_neutralize ("A WOMAN And Two MEN").data
    = ("a person and two people").data := by decide

/-! ## The vision API client (`CVAPIClient.describe_picture`) -/

/-- One `{'text': ..., 'confidence': ...}` caption record.  The code only
ever reads the `text` field, so `confidence` (a float) is omitted. -/
structure Caption where
  text : Str
deriving DecidableEq

/-- The `description` block of a vision API response. -/
structure Description where
  captions : List Caption
  tags : List Str
deriving DecidableEq

/-- The `adult` block of a vision API response. -/
structure AdultInfo where
  isAdultContent : Bool
deriving DecidableEq

/-- A parsed JSON body of a successful vision response: a dict with the
`description` and `adult` keys.  Being a non-empty dict, such a value is
always truthy in the `while ... and not result` loop condition. -/
structure DescResult where
  description : Description
  adult : AdultInfo
deriving DecidableEq

/-- One HTTP response of the vision endpoint, with the fields
`describe_picture` inspects: `status_code`, the optional `content-length`
header (already parsed by `int(...)`), the optional `content-type` header,
the raw body bytes `response.content`, and the value `response.json()`
would parse to when the body is the usual two-key JSON dict. -/
structure CVResponse where
  status : Nat
  contentLength : Option Nat
  contentType : Option Str
  content : List Nat
  jsonBody : DescResult
deriving DecidableEq

/-- What `describe_picture` returns. -/
inductive DescOutcome
  /-- the parsed JSON body (`application/json` content type) -/
  | json (r : DescResult)
  /-- the raw bytes (an `image` content type) -/
  | bytes (b : List Nat)
  /-- the loop finished with `result` still `None` -/
  | noResult
  /-- the response script ran out while the loop would issue another request -/
  | outOfScript
deriving DecidableEq

/-- The `while retries < 15 and not result` loop of `describe_picture`
(common.py lines 104-141), driven by the list of scripted responses.
Returns the outcome, the number of HTTP requests issued, and the list of
`time.sleep` durations in order.  Faithful details:
* on `429` the inner `if retries < 15` is always true (the loop condition
  already guaranteed it), so the code sleeps 2 and increments `retries`;
* on `200`/`201` with a zero `content-length` header, `result` stays
  `None` and the loop continues WITHOUT touching `retries`;
* on a JSON content type, `result` is the parsed body if `response.content`
  is non-empty (a non-empty dict, hence truthy, ending the loop);
* on an `image` content type, `result` is the raw bytes, which end the
  loop only when non-empty (`b''` is falsy);
* on any other status, `retries` is incremented and the sleep is
  `10 + retries*3` with the incremented value. -/
def describeLoop : Nat → List CVResponse → DescOutcome × Nat × List Nat
  | retries, rs =>
    if 15 ≤ retries then (DescOutcome.noResult, 0, [])
    else match rs with
      | [] => (DescOutcome.outOfScript, 0, [])
      | r :: rest =>
        if r.status = 429 then
          let out := describeLoop (retries + 1) rest
          (out.1, out.2.1 + 1, 2 :: out.2.2)
        else if r.status = 200 ∨ r.status = 201 then
          if r.contentLength = some 0 then
            let out := describeLoop retries rest
            (out.1, out.2.1 + 1, out.2.2)
          else match r.contentType with
            | some ct =>
              if isSubstr ("application/json").data (lowerStr ct) then
                if r.content = [] then
                  let out := describeLoop retries rest
                  (out.1, out.2.1 + 1, out.2.2)
                else (DescOutcome.json r.jsonBody, 1, [])
              else if isSubstr ("image").data (lowerStr ct) then
                if r.content = [] then
                  let out := describeLoop retries rest
                  (out.1, out.2.1 + 1, out.2.2)
                else (DescOutcome.bytes r.content, 1, [])
              else
                let out := describeLoop retries rest
                (out.1, out.2.1 + 1, out.2.2)
            | none =>
              let out := describeLoop retries rest
              (out.1, out.2.1 + 1, out.2.2)
        else
          let out := describeLoop (retries + 1) rest
          (out.1, out.2.1 + 1, (10 + (retries + 1) * 3) :: out.2.2)

/-- `describe_picture(url)`: run the retry loop with `retries = 0`. -/
def describe_picture (rs : List CVResponse) : DescOutcome × Nat × List Nat :=
  describeLoop 0 rs

/-! ## The orchestrator (`get_picture_and_description`) -/

/-- The `Result` value object (common.py lines 186-192). -/
structure Result where
  caption : Str
  tags : List Str
  url : Str
  source_url : Str
deriving DecidableEq

/-- How a run of `get_picture_and_description` ends. -/
inductive Outcome
  /-- a `Result` was returned -/
  | success (r : Result)
  /-- `raise Exception("Maximum retries exceeded, no good picture")` -/
  | retriesExceeded
  /-- the scripted inputs ran out while a loop would continue -/
  | outOfScript
deriving DecidableEq

/-- The inner `while pic is None` polling loop: call `get_random_picture`
on successive scripted pages until one is accepted; the loop itself is
unbounded, so an exhausted script is reported as `none`. -/
def pollPicture (wf : Wordfilter) : List Page → Option (ImageInfo × List Page)
  | [] => none
  | p :: ps =>
    match get_random_picture wf p with
    | some info => some (info, ps)
    | none => pollPicture wf ps

/-- One body evaluation of the outer loop of `get_picture_and_description`
(common.py lines 158-177), given the accepted picture `pic` and the value
`result` returned by `self.describe_picture(url)` (`none`, or a parsed
JSON body).  Returns `some` of the constructed `Result` on the success
path, `none` on each of the four discard paths (`result is None`, adult
content, empty caption list, blacklisted caption). -/
def orchCycle (wf : Wordfilter) (pic : ImageInfo)
    (descr : Option DescResult) : Option Result :=
  -- url = pic['url'], or pic['thumburl'] when pic['size'] > 4000000
  let url := if pic.size > 4000000 then pic.thumburl else pic.url
  match descr with
  | none => none
  | some result =>
    if result.adult.isAdultContent then none
    else match result.description.captions with
      | [] => none
      | c :: _ =>
        let caption := gender_neutralize c.text
        if wf.blacklisted caption then none
        else some ⟨caption, result.description.tags, url,
                   pic.descriptionshorturl⟩

/-- The `while retries <= max_retries` loop of `get_picture_and_description`
(common.py lines 143-183), with `fuel` = number of remaining iterations
(`max_retries + 1 - retries`).  Each iteration polls for an accepted
picture, consumes the next scripted `describe_picture` outcome, and either
returns a `Result` or retries.  Also returns the number of completed
cycles (= `describe_picture` calls). -/
def orchLoop (wf : Wordfilter) :
    Nat → List Page → List (Option DescResult) → Outcome × Nat
  | 0, _, _ => (Outcome.retriesExceeded, 0)
  | fuel + 1, pages, descrs =>
    match pollPicture wf pages with
    | none => (Outcome.outOfScript, 0)
    | some (pic, pages') =>
      match descrs with
      | [] => (Outcome.outOfScript, 0)
      | descr :: descrs' =>
        match orchCycle wf pic descr with
        | some res => (Outcome.success res, 1)
        | none =>
          let out := orchLoop wf fuel pages' descrs'
          (out.1, out.2 + 1)

/-- `get_picture_and_description(max_retries)`: the loop runs for retry
counter values `0` through `max_retries`, i.e. `max_retries + 1`
iterations at most. -/
def get_picture_and_description (wf : Wordfilter) (max_retries : Nat)
    (pages : List Page) (descrs : List (Option DescResult)) : Outcome × Nat :=
  orchLoop wf (max_retries + 1) pages descrs

/-! ## `Result.download_picture` -/

/-- A plain HTTP response for the image download. -/
structure HttpResponse where
  status : Nat
  content : List Nat
deriving DecidableEq

/-- How `download_picture` ends. -/
inductive DownloadOutcome
  /-- `BytesIO(response.content)` is returned -/
  | ok (b : List Nat)
  /-- `print("Fetching picture failed: " + response.status_code)` raises
  `TypeError`: a `str` and an `int` cannot be concatenated -/
  | typeErr
  /-- `raise Exception("Maximum retries exceeded when downloading a picture")` -/
  | maxRetriesExceeded
  /-- the response script ran out while the loop would issue another request -/
  | outOfScript
deriving DecidableEq

/-- The `while retries <= 20` loop of `Result.download_picture`
(common.py lines 194-210).  On a 200 response the body is returned; on any
other status the log line `"Fetching picture failed: " + response.status_code`
concatenates a `str` with an `int` and therefore raises `TypeError` before
the `retries += 1` / `time.sleep(1)` lines run, so the loop never actually
retries and the max-retries `raise` is unreachable. -/
def downloadLoop : Nat → List HttpResponse → DownloadOutcome
  | retries, rs =>
    if 20 < retries then DownloadOutcome.maxRetriesExceeded
    else match rs with
      | [] => DownloadOutcome.outOfScript
      | r :: _ =>
        if r.status = 200 then DownloadOutcome.ok r.content
        else DownloadOutcome.typeErr

/-- `Result.download_picture()` on a scripted list of responses. -/
def download_picture (rs : List HttpResponse) : DownloadOutcome :=
  downloadLoop 0 rs

/-! ## Helper lemmas: characters -/

/-- ASCII case folding is idempotent. -/
lemma char_toLower_toLower (c : Char) : c.toLower.toLower = c.toLower := by
  have hdef : ∀ d : Char,
      d.toLower = if d.toNat ≥ 65 ∧ d.toNat ≤ 90 then Char.ofNat (d.toNat + 32) else d :=
    fun _ => rfl
  rw [hdef c]
  by_cases h : c.toNat ≥ 65 ∧ c.toNat ≤ 90
  · rw [if_pos h]
    obtain ⟨h1, h2⟩ := h
    rw [hdef]
    generalize c.toNat = m at h1 h2
    interval_cases m <;> decide
  · rw [if_neg h, hdef, if_neg h]

/-- A list is fixed by `map f` iff `f` fixes each element. -/
lemma map_eq_self_of_fixed {α : Type} (f : α → α) :
    ∀ l : List α, (∀ c ∈ l, f c = c) → l.map f = l
  | [], _ => rfl
  | a :: l, h => by
    simp only [List.map_cons, List.cons.injEq]
    exact ⟨h a (List.mem_cons_self a l),
           map_eq_self_of_fixed f l (fun c hc => h c (List.mem_cons_of_mem a hc))⟩

/-- `lowerStr` is idempotent. -/
lemma lowerStr_lowerStr (s : Str) : lowerStr (lowerStr s) = lowerStr s := by
  unfold lowerStr
  rw [List.map_map]
  exact List.map_congr_left (fun c _ => char_toLower_toLower c)

/-- Every character of `lowerStr s` is fixed by `Char.toLower`. -/
lemma lowerStr_chars_fixed (s : Str) : ∀ c ∈ lowerStr s, c.toLower = c := by
  intro c hc
  rcases List.mem_map.mp hc with ⟨d, _, rfl⟩
  exact char_toLower_toLower d

/-! ## Helper lemmas: `pySplit` / `joinSpaces` -/

/-- Unfolding equation of `pySplitAux` on `[]`. -/
lemma pySplitAux_eq_nil (acc : Str) :
    pySplitAux acc [] = if acc = [] then [] else [acc] := rfl

/-- Unfolding equation of `pySplitAux` on `c :: rest`. -/
lemma pySplitAux_eq_cons (acc : Str) (c : Char) (rest : Str) :
    pySplitAux acc (c :: rest) =
      if c.isWhitespace then
        (if acc = [] then pySplitAux [] rest else acc :: pySplitAux [] rest)
      else pySplitAux (acc ++ [c]) rest := rfl

/-- Reading a whitespace-free chunk just extends the accumulator. -/
lemma pySplitAux_append (t : Str) (hws : ∀ c ∈ t, ¬ c.isWhitespace = true) :
    ∀ (acc rest : Str), pySplitAux acc (t ++ rest) = pySplitAux (acc ++ t) rest := by
  induction t with
  | nil => intro acc rest; simp
  | cons c t ih =>
    intro acc rest
    have hc : ¬ c.isWhitespace = true := hws c (List.mem_cons_self c t)
    have ht : ∀ x ∈ t, ¬ x.isWhitespace = true :=
      fun x hx => hws x (List.mem_cons_of_mem c hx)
    show pySplitAux acc (c :: (t ++ rest)) = _
    rw [pySplitAux_eq_cons, if_neg hc, ih ht (acc ++ [c]) rest]
    simp

/-- Hitting a space with a non-empty accumulator emits the token. -/
lemma pySplitAux_space (acc rest : Str) (hacc : acc ≠ []) :
    pySplitAux acc (' ' :: rest) = acc :: pySplitAux [] rest := by
  rw [pySplitAux_eq_cons, if_pos (by decide), if_neg hacc]

/-- End of input with a non-empty accumulator emits the token. -/
lemma pySplitAux_nil (acc : Str) (hacc : acc ≠ []) :
    pySplitAux acc [] = [acc] := by
  rw [pySplitAux_eq_nil, if_neg hacc]

/-- Splitting the space-joined list of non-empty, whitespace-free tokens
recovers the tokens. -/
lemma pySplit_joinSpaces :
    ∀ ts : List Str, (∀ t ∈ ts, t ≠ []) →
      (∀ t ∈ ts, ∀ c ∈ t, ¬ c.isWhitespace = true) →
      pySplit (joinSpaces ts) = ts
  | [], _, _ => rfl
  | [t], hne, hws => by
    show pySplitAux [] (joinSpaces [t]) = [t]
    have : joinSpaces [t] = t := rfl
    rw [this, show (t : Str) = t ++ [] by simp,
        pySplitAux_append t (hws t (by simp)) [] []]
    simpa using pySplitAux_nil t (hne t (by simp))
  | t :: t' :: ts, hne, hws => by
    show pySplitAux [] (joinSpaces (t :: t' :: ts)) = t :: t' :: ts
    have hj : joinSpaces (t :: t' :: ts) = t ++ ' ' :: joinSpaces (t' :: ts) := rfl
    rw [hj, pySplitAux_append t (hws t (by simp)) [] (' ' :: joinSpaces (t' :: ts))]
    simp only [List.nil_append]
    rw [pySplitAux_space t _ (hne t (by simp))]
    have ihne : ∀ x ∈ t' :: ts, x ≠ [] := fun x hx => hne x (List.mem_cons_of_mem t hx)
    have ihws : ∀ x ∈ t' :: ts, ∀ c ∈ x, ¬ c.isWhitespace = true :=
      fun x hx => hws x (List.mem_cons_of_mem t hx)
    rw [show pySplitAux [] (joinSpaces (t' :: ts)) = pySplit (joinSpaces (t' :: ts)) from rfl,
        pySplit_joinSpaces (t' :: ts) ihne ihws]

/-- Tokens produced by the split are non-empty and whitespace-free. -/
lemma pySplitAux_tokens :
    ∀ (s acc : Str), (∀ c ∈ acc, ¬ c.isWhitespace = true) →
      ∀ t ∈ pySplitAux acc s, t ≠ [] ∧ ∀ c ∈ t, ¬ c.isWhitespace = true
  | [], acc, hacc => by
    intro t ht
    unfold pySplitAux at ht
    by_cases h : acc = ([] : Str)
    · rw [if_pos h] at ht; exact absurd ht (List.not_mem_nil t)
    · rw [if_neg h] at ht
      rcases List.mem_singleton.mp ht with rfl
      exact ⟨h, hacc⟩
  | c :: rest, acc, hacc => by
    intro t ht
    unfold pySplitAux at ht
    by_cases hw : c.isWhitespace = true
    · rw [if_pos hw] at ht
      by_cases h : acc = ([] : Str)
      · rw [if_pos h] at ht
        exact pySplitAux_tokens rest [] (by simp) t ht
      · rw [if_neg h] at ht
        rcases List.mem_cons.mp ht with rfl | ht'
        · exact ⟨h, hacc⟩
        · exact pySplitAux_tokens rest [] (by simp) t ht'
    · rw [if_neg hw] at ht
      refine pySplitAux_tokens rest (acc ++ [c]) ?_ t ht
      intro x hx
      rcases List.mem_append.mp hx with hx' | hx'
      · exact hacc x hx'
      · rcases List.mem_singleton.mp hx' with rfl; exact hw

/-- Every character of a token comes from the accumulator or the input. -/
lemma pySplitAux_chars :
    ∀ (s acc : Str), ∀ t ∈ pySplitAux acc s, ∀ c ∈ t, c ∈ acc ∨ c ∈ s
  | [], acc => by
    intro t ht c hc
    unfold pySplitAux at ht
    by_cases h : acc = ([] : Str)
    · rw [if_pos h] at ht; exact absurd ht (List.not_mem_nil t)
    · rw [if_neg h] at ht
      rcases List.mem_singleton.mp ht with rfl
      exact Or.inl hc
  | x :: rest, acc => by
    intro t ht c hc
    unfold pySplitAux at ht
    by_cases hw : x.isWhitespace = true
    · rw [if_pos hw] at ht
      by_cases h : acc = ([] : Str)
      · rw [if_pos h] at ht
        rcases pySplitAux_chars rest [] t ht c hc with h' | h'
        · exact absurd h' (List.not_mem_nil c)
        · exact Or.inr (List.mem_cons_of_mem x h')
      · rw [if_neg h] at ht
        rcases List.mem_cons.mp ht with rfl | ht'
        · exact Or.inl hc
        · rcases pySplitAux_chars rest [] t ht' c hc with h' | h'
          · exact absurd h' (List.not_mem_nil c)
          · exact Or.inr (List.mem_cons_of_mem x h')
    · rw [if_neg hw] at ht
      rcases pySplitAux_chars rest (acc ++ [x]) t ht c hc with h' | h'
      · rcases List.mem_append.mp h' with h'' | h''
        · exact Or.inl h''
        · have h3 : c = x := List.mem_singleton.mp h''
          rw [h3]
          exact Or.inr (List.mem_cons_self x rest)
      · exact Or.inr (List.mem_cons_of_mem x h')

/-- Every character of the join is a space or a token character. -/
lemma joinSpaces_chars :
    ∀ ts : List Str, ∀ c ∈ joinSpaces ts, c = ' ' ∨ ∃ t ∈ ts, c ∈ t
  | [] => by intro c hc; exact absurd hc (List.not_mem_nil c)
  | [t] => by
    intro c hc
    exact Or.inr ⟨t, by simp, hc⟩
  | t :: t' :: ts => by
    intro c hc
    have hj : joinSpaces (t :: t' :: ts) = t ++ ' ' :: joinSpaces (t' :: ts) := rfl
    rw [hj] at hc
    rcases List.mem_append.mp hc with h | h
    · exact Or.inr ⟨t, by simp, h⟩
    · rcases List.mem_cons.mp h with rfl | h'
      · exact Or.inl rfl
      · rcases joinSpaces_chars (t' :: ts) c h' with h'' | ⟨x, hx, hcx⟩
        · exact Or.inl h''
        · exact Or.inr ⟨x, List.mem_cons_of_mem t hx, hcx⟩

/-! ## Helper lemmas: `substGendered` and `gender_neutralize` -/

/-- The substitution either leaves a token alone or produces one of the
two replacement words. -/
lemma substGendered_cases (w : Str) :
    substGendered w = w ∨ substGendered w = ("person").data ∨
      substGendered w = ("people").data := by
  unfold substGendered
  split
  · exact Or.inr (Or.inl rfl)
  · split
    · exact Or.inr (Or.inl rfl)
    · split
      · exact Or.inr (Or.inr rfl)
      · split
        · exact Or.inr (Or.inr rfl)
        · exact Or.inl rfl

/-- The substitution is idempotent: the replacement words are not
themselves keys of `gendered_words`. -/
lemma substGendered_idem (w : Str) :
    substGendered (substGendered w) = substGendered w := by
  rcases substGendered_cases w with h | h | h <;> rw [h]
  · rw [h]
  · decide
  · decide

/-- Properties of the tokens `gender_neutralize` joins: each is
non-empty, whitespace-free, and fixed by lower-casing. -/
lemma gn_tokens (s : Str) :
    ∀ t ∈ (pySplit (lowerStr s)).map substGendered,
      t ≠ [] ∧ (∀ c ∈ t, ¬ c.isWhitespace = true) ∧ (∀ c ∈ t, c.toLower = c) := by
  intro t ht
  rcases List.mem_map.mp ht with ⟨t₀, ht₀, rfl⟩
  have htok := pySplitAux_tokens (lowerStr s) [] (by simp) t₀ ht₀
  have hchars : ∀ c ∈ t₀, c.toLower = c := by
    intro c hc
    rcases pySplitAux_chars (lowerStr s) [] t₀ ht₀ c hc with h | h
    · exact absurd h (List.not_mem_nil c)
    · exact lowerStr_chars_fixed s c h
  rcases substGendered_cases t₀ with h | h | h <;> rw [h]
  · exact ⟨htok.1, htok.2, hchars⟩
  · exact ⟨by decide, by decide, by decide⟩
  · exact ⟨by decide, by decide, by decide⟩

/-- The output of `gender_neutralize` is fixed by lower-casing. -/
lemma lowerStr_gender_neutralize (s : Str) :
    lowerStr (gender_neutralize s) = gender_neutralize s := by
  apply map_eq_self_of_fixed
  intro c hc
  rcases joinSpaces_chars _ c hc with rfl | ⟨t, ht, hct⟩
  · decide
  · exact (gn_tokens s t ht).2.2 c hct

/-- `gender_neutralize` is idempotent. -/
lemma gender_neutralize_idem (s : Str) :
    gender_neutralize (gender_neutralize s) = gender_neutralize s := by
  have hts := gn_tokens s
  calc gender_neutralize (gender_neutralize s)
      = joinSpaces ((pySplit (lowerStr (gender_neutralize s))).map substGendered) := rfl
    _ = joinSpaces ((pySplit (gender_neutralize s)).map substGendered) := by
          rw [lowerStr_gender_neutralize s]
    _ = joinSpaces (((pySplit (lowerStr s)).map substGendered).map substGendered) := by
          rw [show pySplit (gender_neutralize s)
                = (pySplit (lowerStr s)).map substGendered from
              pySplit_joinSpaces _ (fun t ht => (hts t ht).1)
                (fun t ht => (hts t ht).2.1)]
    _ = joinSpaces ((pySplit (lowerStr s)).map substGendered) := by
          rw [List.map_map]
          congr 1
          exact List.map_congr_left (fun t _ => substGendered_idem t)
    _ = gender_neutralize s := rfl

/-- Case folding the input first does not change the result. -/
lemma gender_neutralize_lower (s : Str) :
    gender_neutralize (lowerStr s) = gender_neutralize s := by
  unfold gender_neutralize
  rw [lowerStr_lowerStr]

/-! ## Helper lemmas: suffixes and `supported_formats` -/

/-- `startsWith` holds for a list extended on the right. -/
lemma startsWith_self_append : ∀ p y : Str, startsWith p (p ++ y) = true
  | [], _ => rfl
  | a :: p, y => by
    show (a == a && startsWith p (p ++ y)) = true
    rw [startsWith_self_append p y]
    simp

/-- Two `startsWith` facts with different head characters are incompatible. -/
lemma startsWith_false_of_ne {a b : Char} {as bs l : Str} (hne : a ≠ b)
    (hb : startsWith (b :: bs) l = true) : startsWith (a :: as) l = false := by
  cases l with
  | nil => exact absurd hb (by simp [startsWith])
  | cons c l' =>
    have hbc : b = c := by
      have := hb
      simp only [startsWith, Bool.and_eq_true, beq_iff_eq] at this
      exact this.1
    show (a == c && startsWith as l') = false
    have hac : a ≠ c := fun h => hne (h.trans hbc.symm)
    simp [hac]

/-- Appending a suffix makes `endsWith` hold. -/
lemma endsWith_append (x suf : Str) : endsWith suf (x ++ suf) = true := by
  unfold endsWith
  rw [List.reverse_append]
  exact startsWith_self_append _ _

/-- A URL ending in `.bmp` never matches `supported_formats`. -/
lemma supported_formats_bmp (url : Str)
    (h : endsWith (".bmp").data (lowerStr url) = true) :
    supported_formats url = false := by
  have hb : startsWith ['p', 'm', 'b', '.'] (lowerStr url).reverse = true := h
  have h1 : startsWith ['g', 'n', 'p', '.'] (lowerStr url).reverse = false :=
    startsWith_false_of_ne (by decide) hb
  have h2 : startsWith ['g', 'p', 'j', '.'] (lowerStr url).reverse = false :=
    startsWith_false_of_ne (by decide) hb
  have h3 : startsWith ['g', 'e', 'p', 'j', '.'] (lowerStr url).reverse = false :=
    startsWith_false_of_ne (by decide) hb
  have h4 : startsWith ['f', 'i', 'g', '.'] (lowerStr url).reverse = false :=
    startsWith_false_of_ne (by decide) hb
  unfold supported_formats endsWith
  rw [show (".png").data.reverse = (['g', 'n', 'p', '.'] : Str) from rfl,
      show (".jpg").data.reverse = (['g', 'p', 'j', '.'] : Str) from rfl,
      show (".jpeg").data.reverse = (['g', 'e', 'p', 'j', '.'] : Str) from rfl,
      show (".gif").data.reverse = (['f', 'i', 'g', '.'] : Str) from rfl,
      h1, h2, h3, h4]
  rfl

/-- A URL ending in `.JPG` matches `supported_formats`. -/
lemma supported_formats_JPG (u : Str) :
    supported_formats (u ++ (".JPG").data) = true := by
  have hjpg : endsWith (".jpg").data (lowerStr (u ++ (".JPG").data)) = true := by
    have : lowerStr (u ++ (".JPG").data) = lowerStr u ++ (".jpg").data := by
      unfold lowerStr
      rw [List.map_append]
      rfl
    rw [this]
    exact endsWith_append _ _
  unfold supported_formats
  rw [hjpg]
  simp

/-! ## Helper lemmas: `get_random_picture` -/

/-- Characterization of an accepted candidate: the returned record is the
page's `imageinfo` and every structural filter passed. -/
lemma get_random_picture_some {wf : Wordfilter} {page : Page} {info : ImageInfo}
    (h : get_random_picture wf page = some info) :
    info = page.imageinfo ∧ info.mediatype = ("BITMAP").data ∧
      50 < info.width ∧ 50 < info.height ∧ supported_formats info.url = true := by
  unfold get_random_picture at h
  split_ifs at h with h1 h2 h3 h4 h5 h6 h7
  injection h with h'
  subst h'
  push_neg at h6
  exact ⟨rfl, not_not.mp h5, h6.1, h6.2, h7⟩

/-- Any page whose `imageinfo` width is 40 is rejected. -/
lemma get_random_picture_width40 (wf : Wordfilter) (page : Page)
    (h : page.imageinfo.width = 40) : get_random_picture wf page = none := by
  unfold get_random_picture
  split_ifs with h1 h2 h3 h4 h5 h6 h7
  all_goals try rfl
  exact absurd (Or.inl (by omega)) h6

/-- Any page whose `imageinfo` URL ends in `.bmp` is rejected. -/
lemma get_random_picture_bmp (wf : Wordfilter) (page : Page)
    (h : endsWith (".bmp").data (lowerStr page.imageinfo.url) = true) :
    get_random_picture wf page = none := by
  have hsf := supported_formats_bmp page.imageinfo.url h
  unfold get_random_picture
  split_ifs with h1 h2 h3 h4 h5 h6 h7
  all_goals try rfl
  rw [h7] at hsf
  exact absurd hsf (by simp)

/-- Any page one of whose category titles contains a blacklisted category
substring is rejected. -/
lemma get_random_picture_category (wf : Wordfilter) (page : Page)
    (h : page.categories.any
        (fun cat => category_blacklist.any
          (fun bc => isSubstr bc (lowerStr cat.title))) = true) :
    get_random_picture wf page = none := by
  unfold get_random_picture
  split_ifs with h1 h2 h3
  all_goals rfl

/-! ## Helper lemmas: the orchestrator -/

/-- A successful poll returns the acceptance of some scripted page, and
leaves a sublist of the script. -/
lemma pollPicture_spec {wf : Wordfilter} :
    ∀ {pages : List Page} {pic : ImageInfo} {rest : List Page},
      pollPicture wf pages = some (pic, rest) →
      (∃ p ∈ pages, get_random_picture wf p = some pic) ∧
        ∀ x ∈ rest, x ∈ pages
  | [], _, _, h => by exact Option.noConfusion h
  | p :: ps, pic, rest, h => by
    rw [show pollPicture wf (p :: ps)
          = (match get_random_picture wf p with
             | some info => some (info, ps)
             | none => pollPicture wf ps) from rfl] at h
    cases hgp : get_random_picture wf p with
    | some info =>
      rw [hgp] at h
      injection h with h'
      injection h' with h1 h2
      subst h1; subst h2
      exact ⟨⟨p, List.mem_cons_self p ps, hgp⟩,
             fun x hx => List.mem_cons_of_mem p hx⟩
    | none =>
      rw [hgp] at h
      obtain ⟨⟨q, hq, hqs⟩, hrest⟩ := pollPicture_spec h
      exact ⟨⟨q, List.mem_cons_of_mem p hq, hqs⟩,
             fun x hx => List.mem_cons_of_mem p (hrest x hx)⟩

/-- A successful cycle comes from a non-adult description with a first
caption whose neutralization passes the blacklist, and builds the
`Result` from exactly those pieces. -/
lemma orchCycle_some {wf : Wordfilter} {pic : ImageInfo}
    {descr : Option DescResult} {res : Result}
    (h : orchCycle wf pic descr = some res) :
    ∃ d, descr = some d ∧ d.adult.isAdultContent = false ∧
      ∃ c cs, d.description.captions = c :: cs ∧
        wf.blacklisted (gender_neutralize c.text) = false ∧
        res = ⟨gender_neutralize c.text, d.description.tags,
               (if pic.size > 4000000 then pic.thumburl else pic.url),
               pic.descriptionshorturl⟩ := by
  cases descr with
  | none => exact Option.noConfusion h
  | some result =>
    by_cases hadult : result.adult.isAdultContent = true
    · rw [show orchCycle wf pic (some result) = none by
          simp [orchCycle, hadult]] at h
      exact Option.noConfusion h
    · cases hcap : result.description.captions with
      | nil =>
        rw [show orchCycle wf pic (some result) = none by
            simp [orchCycle, hadult, hcap]] at h
        exact Option.noConfusion h
      | cons c cs =>
        by_cases hbl : wf.blacklisted (gender_neutralize c.text) = true
        · rw [show orchCycle wf pic (some result) = none by
              simp [orchCycle, hadult, hcap, hbl]] at h
          exact Option.noConfusion h
        · rw [show orchCycle wf pic (some result)
              = some ⟨gender_neutralize c.text, result.description.tags,
                      (if pic.size > 4000000 then pic.thumburl else pic.url),
                      pic.descriptionshorturl⟩ by
              simp [orchCycle, hadult, hcap, hbl]] at h
          injection h with h'
          exact ⟨result, rfl, Bool.not_eq_true _ ▸ hadult, c, cs, hcap,
                 Bool.not_eq_true _ ▸ hbl, h'.symm⟩

/-- Unfolding equation of `orchLoop` at positive fuel. -/
lemma orchLoop_succ (wf : Wordfilter) (fuel : Nat) (pages : List Page)
    (descrs : List (Option DescResult)) :
    orchLoop wf (fuel + 1) pages descrs =
      match pollPicture wf pages with
      | none => (Outcome.outOfScript, 0)
      | some (pic, pages') =>
        match descrs with
        | [] => (Outcome.outOfScript, 0)
        | descr :: descrs' =>
          match orchCycle wf pic descr with
          | some res => (Outcome.success res, 1)
          | none =>
            ((orchLoop wf fuel pages' descrs').1,
             (orchLoop wf fuel pages' descrs').2 + 1) := rfl

/-- `orchLoop` when the poll script is exhausted. -/
lemma orchLoop_poll_none {wf : Wordfilter} {pages : List Page}
    (fuel : Nat) (descrs : List (Option DescResult))
    (hpoll : pollPicture wf pages = none) :
    orchLoop wf (fuel + 1) pages descrs = (Outcome.outOfScript, 0) := by
  rw [orchLoop_succ, hpoll]

/-- `orchLoop` when a cycle succeeds. -/
lemma orchLoop_cycle_some {wf : Wordfilter} {pages pages' : List Page}
    {pic : ImageInfo} {descr : Option DescResult} {res : Result}
    (fuel : Nat) (descrs' : List (Option DescResult))
    (hpoll : pollPicture wf pages = some (pic, pages'))
    (hcyc : orchCycle wf pic descr = some res) :
    orchLoop wf (fuel + 1) pages (descr :: descrs')
      = (Outcome.success res, 1) := by
  rw [orchLoop_succ, hpoll]
  show (match orchCycle wf pic descr with
        | some res => (Outcome.success res, 1)
        | none =>
          ((orchLoop wf fuel pages' descrs').1,
           (orchLoop wf fuel pages' descrs').2 + 1)) = _
  rw [hcyc]

/-- `orchLoop` when a cycle is discarded. -/
lemma orchLoop_cycle_none {wf : Wordfilter} {pages pages' : List Page}
    {pic : ImageInfo} {descr : Option DescResult}
    (fuel : Nat) (descrs' : List (Option DescResult))
    (hpoll : pollPicture wf pages = some (pic, pages'))
    (hcyc : orchCycle wf pic descr = none) :
    orchLoop wf (fuel + 1) pages (descr :: descrs')
      = ((orchLoop wf fuel pages' descrs').1,
         (orchLoop wf fuel pages' descrs').2 + 1) := by
  rw [orchLoop_succ, hpoll]
  show (match orchCycle wf pic descr with
        | some res => (Outcome.success res, 1)
        | none =>
          ((orchLoop wf fuel pages' descrs').1,
           (orchLoop wf fuel pages' descrs').2 + 1)) = _
  rw [hcyc]

/-- The invariant of a successful orchestration: the caption in the
returned `Result` is gender-neutralized (a fixed point of
`gender_neutralize`) and not blacklisted; the image URL comes from a
candidate accepted by `get_random_picture`; and the caption/tags come from
a scripted description that is not flagged as adult content. -/
lemma orchLoop_success {wf : Wordfilter} :
    ∀ {fuel : Nat} {pages : List Page} {descrs : List (Option DescResult)}
      {r : Result} {n : Nat},
      orchLoop wf fuel pages descrs = (Outcome.success r, n) →
      gender_neutralize r.caption = r.caption ∧
      wf.blacklisted r.caption = false ∧
      (∃ page ∈ pages, ∃ pic, get_random_picture wf page = some pic ∧
        r.url = (if pic.size > 4000000 then pic.thumburl else pic.url) ∧
        r.source_url = pic.descriptionshorturl) ∧
      (∃ d, some d ∈ descrs ∧ d.adult.isAdultContent = false ∧
        ∃ c cs, d.description.captions = c :: cs ∧
          r.caption = gender_neutralize c.text ∧
          r.tags = d.description.tags)
  | 0, _, _, _, _, h => by
    exact absurd (congrArg Prod.fst h) (by simp [orchLoop])
  | fuel + 1, pages, descrs, r, n, h => by
    cases hpoll : pollPicture wf pages with
    | none =>
      rw [orchLoop_poll_none fuel descrs hpoll] at h
      exact absurd (congrArg Prod.fst h) (by simp)
    | some picPages =>
      obtain ⟨pic, pages'⟩ := picPages
      obtain ⟨⟨page, hpage, haccept⟩, hsub⟩ := pollPicture_spec hpoll
      cases descrs with
      | nil =>
        rw [show orchLoop wf (fuel + 1) pages [] = (Outcome.outOfScript, 0) by
              rw [orchLoop_succ, hpoll]] at h
        exact absurd (congrArg Prod.fst h) (by simp)
      | cons descr descrs' =>
        cases hcyc : orchCycle wf pic descr with
        | some res =>
          rw [orchLoop_cycle_some fuel descrs' hpoll hcyc] at h
          have hres : res = r := by
            have h1 := congrArg Prod.fst h
            simp only at h1
            injection h1
          subst hres
          obtain ⟨d, hd, hadult, c, cs, hcap, hbl, hres⟩ := orchCycle_some hcyc
          subst hres
          subst hd
          refine ⟨gender_neutralize_idem c.text, hbl, ?_, ?_⟩
          · exact ⟨page, hpage, pic, haccept, rfl, rfl⟩
          · exact ⟨d, List.mem_cons_self _ _, hadult, c, cs, hcap, rfl, rfl⟩
        | none =>
          rw [orchLoop_cycle_none fuel descrs' hpoll hcyc] at h
          have hfst : (orchLoop wf fuel pages' descrs').1 = Outcome.success r :=
            congrArg Prod.fst h
          have hrec : orchLoop wf fuel pages' descrs'
              = (Outcome.success r, (orchLoop wf fuel pages' descrs').2) := by
            rw [← hfst]
          obtain ⟨hgn, hbl, ⟨pg, hpg, pc, hpc, hurl, hsrc⟩, d, hd, hrest⟩ :=
            orchLoop_success hrec
          exact ⟨hgn, hbl, ⟨pg, hsub pg hpg, pc, hpc, hurl, hsrc⟩,
                 d, List.mem_cons_of_mem descr hd, hrest⟩

/-- A cycle whose description is flagged as adult content is discarded. -/
lemma orchCycle_adult {wf : Wordfilter} {pic : ImageInfo} {d : DescResult}
    (h : d.adult.isAdultContent = true) :
    orchCycle wf pic (some d) = none := by
  simp [orchCycle, h]

/-- When every scripted cycle fails (here: every description is flagged
adult) and the scripts are long enough, the loop burns all its fuel, one
cycle per unit, and ends with the retries-exceeded exception. -/
lemma orchLoop_all_adult {wf : Wordfilter} :
    ∀ (fuel : Nat) (pages : List Page) (descrs : List (Option DescResult)),
      (∀ p ∈ pages, (get_random_picture wf p).isSome = true) →
      fuel ≤ pages.length → fuel ≤ descrs.length →
      (∀ d ∈ descrs, ∃ a, d = some a ∧ a.adult.isAdultContent = true) →
      orchLoop wf fuel pages descrs = (Outcome.retriesExceeded, fuel)
  | 0, _, _, _, _, _, _ => rfl
  | fuel + 1, pages, descrs, hpages, hplen, hdlen, hadult => by
    cases pages with
    | nil => exact absurd hplen (by simp)
    | cons p ps =>
      cases descrs with
      | nil => exact absurd hdlen (by simp)
      | cons descr descrs' =>
        obtain ⟨pic, hpic⟩ :=
          Option.isSome_iff_exists.mp (hpages p (List.mem_cons_self p ps))
        have hpoll : pollPicture wf (p :: ps) = some (pic, ps) := by
          show (match get_random_picture wf p with
                | some info => some (info, ps)
                | none => pollPicture wf ps) = some (pic, ps)
          rw [hpic]
        obtain ⟨a, rfl, ha⟩ := hadult descr (List.mem_cons_self descr descrs')
        have hrec : orchLoop wf fuel ps descrs' = (Outcome.retriesExceeded, fuel) :=
          orchLoop_all_adult fuel ps descrs'
            (fun q hq => hpages q (List.mem_cons_of_mem p hq))
            (by simpa using Nat.le_of_succ_le_succ (by simpa using hplen))
            (by simpa using Nat.le_of_succ_le_succ (by simpa using hdlen))
            (fun d hd => hadult d (List.mem_cons_of_mem _ hd))
        rw [orchLoop_cycle_none fuel descrs' hpoll (orchCycle_adult ha), hrec]

/-! ## Helper lemmas: `describe_picture` -/

/-- Unfolding equation of `describeLoop`. -/
lemma describeLoop_eq (retries : Nat) (rs : List CVResponse) :
    describeLoop retries rs =
      if 15 ≤ retries then (DescOutcome.noResult, 0, [])
      else match rs with
        | [] => (DescOutcome.outOfScript, 0, [])
        | r :: rest =>
          if r.status = 429 then
            let out := describeLoop (retries + 1) rest
            (out.1, out.2.1 + 1, 2 :: out.2.2)
          else if r.status = 200 ∨ r.status = 201 then
            if r.contentLength = some 0 then
              let out := describeLoop retries rest
              (out.1, out.2.1 + 1, out.2.2)
            else match r.contentType with
              | some ct =>
                if isSubstr ("application/json").data (lowerStr ct) then
                  if r.content = [] then
                    let out := describeLoop retries rest
                    (out.1, out.2.1 + 1, out.2.2)
                  else (DescOutcome.json r.jsonBody, 1, [])
                else if isSubstr ("image").data (lowerStr ct) then
                  if r.content = [] then
                    let out := describeLoop retries rest
                    (out.1, out.2.1 + 1, out.2.2)
                  else (DescOutcome.bytes r.content, 1, [])
                else
                  let out := describeLoop retries rest
                  (out.1, out.2.1 + 1, out.2.2)
              | none =>
                let out := describeLoop retries rest
                (out.1, out.2.1 + 1, out.2.2)
          else
            let out := describeLoop (retries + 1) rest
            (out.1, out.2.1 + 1, (10 + (retries + 1) * 3) :: out.2.2) := by
  rw [describeLoop.eq_def]

/-- With every response a 429 and enough of them scripted, the loop makes
exactly `15 - retries` further requests, sleeping 2 after each, and ends
with no result. -/
lemma describeLoop_429 :
    ∀ (rs : List CVResponse) (k : Nat),
      (∀ r ∈ rs, r.status = 429) → 15 - k ≤ rs.length →
      describeLoop k rs = (DescOutcome.noResult, 15 - k, List.replicate (15 - k) 2)
  | rs, k, h429, hlen => by
    by_cases hk : 15 ≤ k
    · rw [describeLoop_eq, if_pos hk, Nat.sub_eq_zero_of_le hk]
      rfl
    · cases rs with
      | nil => exact absurd hlen (by simp; omega)
      | cons r rest =>
        have hr : r.status = 429 := h429 r (List.mem_cons_self r rest)
        have hrec := describeLoop_429 rest (k + 1)
          (fun x hx => h429 x (List.mem_cons_of_mem r hx))
          (by simp at hlen ⊢; omega)
        rw [describeLoop_eq, if_neg hk]
        show (if r.status = 429 then
                let out := describeLoop (k + 1) rest
                (out.1, out.2.1 + 1, 2 :: out.2.2)
              else _) = _
        rw [if_pos hr, hrec]
        have h15 : 15 - k = (15 - (k + 1)) + 1 := by omega
        rw [h15, List.replicate_succ]

/-- A 200 response with a zero `content-length` header leaves the retry
counter alone and continues the loop with one more request issued. -/
lemma describeLoop_empty200 (k : Nat) (r : CVResponse) (rs : List CVResponse)
    (hst : r.status = 200) (hcl : r.contentLength = some 0) (hk : k < 15) :
    describeLoop k (r :: rs) =
      ((describeLoop k rs).1, (describeLoop k rs).2.1 + 1,
       (describeLoop k rs).2.2) := by
  rw [describeLoop_eq, if_neg (by omega)]
  show (if r.status = 429 then _
        else if r.status = 200 ∨ r.status = 201 then _ else _) = _
  rw [if_neg (by omega), if_pos (Or.inl hst)]
  show (if r.contentLength = some 0 then
          let out := describeLoop k rs
          (out.1, out.2.1 + 1, out.2.2)
        else _) = _
  rw [if_pos hcl]

/-! ## Concrete fixtures used by the witnesses -/

/-- The word filter of the source: the library's list extended with
`nazi` (only the added word matters for these scenarios). -/
def wf0 : Wordfilter := ⟨[("nazi").data]⟩

/-- An image record that passes every structural filter. -/
def infoOk : ImageInfo :=
  ⟨("http://commons.example/cat.jpg").data,
   ("http://commons.example/cat-thumb.jpg").data,
   1000, 800, 600, ("BITMAP").data,
   ("http://commons.example/short").data⟩

/-- A page that `get_random_picture` accepts. -/
def pageOk : Page :=
  ⟨("File:Cat.jpg").data, ("Cat").data, ("").data, [], infoOk⟩

/-- Like `pageOk` but with width 40. -/
def pageW40 : Page :=
  ⟨("File:Cat.jpg").data, ("Cat").data, ("").data, [],
   ⟨("http://commons.example/cat.jpg").data,
    ("http://commons.example/cat-thumb.jpg").data,
    1000, 40, 600, ("BITMAP").data,
    ("http://commons.example/short").data⟩⟩

/-- Like `pageOk` but with a `.bmp` URL. -/
def pageBmp : Page :=
  ⟨("File:Cat.bmp").data, ("Cat").data, ("").data, [],
   ⟨("http://commons.example/cat.bmp").data,
    ("http://commons.example/cat-thumb.bmp").data,
    1000, 800, 600, ("BITMAP").data,
    ("http://commons.example/short").data⟩⟩

/-- Like `pageOk` but carrying a blacklisted category. -/
def pageSep11 : Page :=
  ⟨("File:Cat.jpg").data, ("Cat").data, ("").data,
   [⟨("Category:September 11 attacks").data, ("x").data⟩], infoOk⟩

/-- A harmless parsed description. -/
def descDog : DescResult :=
  ⟨⟨[⟨("A Woman and a dog").data⟩], [("dog").data]⟩, ⟨false⟩⟩

/-- A description flagged as adult content. -/
def descAdult : DescResult :=
  ⟨⟨[⟨("something").data⟩], []⟩, ⟨true⟩⟩

/-- The `Result` produced from `pageOk` and `descDog`. -/
def resOk : Result :=
  ⟨("a person and a dog").data, [("dog").data],
   ("http://commons.example/cat.jpg").data,
   ("http://commons.example/short").data⟩

/-- A rate-limiting response. -/
def cv429 : CVResponse := ⟨429, none, none, [], descDog⟩

/-- A 200 response with a zero `content-length` header. -/
def cvEmpty200 : CVResponse :=
  ⟨200, some 0, some (("application/json").data), [], descDog⟩

/-- A 200 JSON response with a body. -/
def cvGood : CVResponse :=
  ⟨200, none, some (("application/json").data), [1], descDog⟩

/-- A failing download response. -/
def resp500 : HttpResponse := ⟨500, []⟩

/-- A successful download response. -/
def resp200 : HttpResponse := ⟨200, [42]⟩

/-! ## Claims -/

/-- C1.  Every `Result` returned by `get_picture_and_description` is
constructed only from a caption that has been gender-neutralized (a fixed
point of `gender_neutralize`) and is not blacklisted by the word filter,
and from an image candidate accepted by `get_random_picture` (all filters
passed) whose description result has the adult-content flag false. -/
theorem picdesc_result_invariant (wf : Wordfilter) (max_retries : Nat)
    (pages : List Page) (descrs : List (Option DescResult))
    (r : Result) (n : Nat)
    (h : get_picture_and_description wf max_retries pages descrs
          = (Outcome.success r, n)) :
    gender_neutralize r.caption = r.caption ∧
    wf.blacklisted r.caption = false ∧
    (∃ page ∈ pages, ∃ pic, get_random_picture wf page = some pic ∧
      r.url = (if pic.size > 4000000 then pic.thumburl else pic.url) ∧
      r.source_url = pic.descriptionshorturl) ∧
    (∃ d, some d ∈ descrs ∧ d.adult.isAdultContent = false ∧
      ∃ c cs, d.description.captions = c :: cs ∧
        r.caption = gender_neutralize c.text ∧
        r.tags = d.description.tags) :=
  orchLoop_success h

/-- Witness for C1: a concrete successful run. -/
theorem picdesc_result_invariant_witness :
    get_picture_and_description wf0 0 [pageOk] [some descDog]
      = (Outcome.success resOk, 1) ∧
    (gender_neutralize resOk.caption = resOk.caption ∧
     wf0.blacklisted resOk.caption = false ∧
     (∃ page ∈ [pageOk], ∃ pic, get_random_picture wf0 page = some pic ∧
       resOk.url = (if pic.size > 4000000 then pic.thumburl else pic.url) ∧
       resOk.source_url = pic.descriptionshorturl) ∧
     (∃ d, some d ∈ [some descDog] ∧ d.adult.isAdultContent = false ∧
       ∃ c cs, d.description.captions = c :: cs ∧
         resOk.caption = gender_neutralize c.text ∧
         resOk.tags = d.description.tags)) :=
  ⟨by decide,
   picdesc_result_invariant wf0 0 [pageOk] [some descDog] resOk 1 (by decide)⟩

/-- C2.  The claim that `download_picture` retries non-200 responses is a
code bug: the log line concatenates a `str` with the `int` status code and
raises `TypeError` on the very first non-200 response, so 21 consecutive
500s produce `TypeError` (not the max-retries exception), and a 200 on the
5th attempt is never reached. -/
theorem download_picture_type_error :
    download_picture (List.replicate 21 resp500) = DownloadOutcome.typeErr ∧
    download_picture (List.replicate 4 resp500 ++ [resp200])
      = DownloadOutcome.typeErr ∧
    DownloadOutcome.typeErr ≠ DownloadOutcome.maxRetriesExceeded := by
  exact ⟨rfl, rfl, by decide⟩

/-- C3.  A candidate page one of whose category titles contains
(case-insensitively) a blacklisted category substring is rejected:
`get_random_picture` returns `none`. -/
theorem blacklisted_category_rejected (wf : Wordfilter) (page : Page)
    (h : page.categories.any
        (fun cat => category_blacklist.any
          (fun bc => isSubstr bc (lowerStr cat.title))) = true) :
    get_random_picture wf page = none :=
  get_random_picture_category wf page h

/-- Witness for C3: a page categorized under September 11. -/
theorem blacklisted_category_rejected_witness :
    (pageSep11.categories.any
      (fun cat => category_blacklist.any
        (fun bc => isSubstr bc (lowerStr cat.title))) = true) ∧
    get_random_picture wf0 pageSep11 = none :=
  ⟨by decide, blacklisted_category_rejected wf0 pageSep11 (by decide)⟩

/-- C4 counterexample.  After a 200 response with a zero `content-length`
header, `describe_picture` does NOT return `none` for the call: it issues
a second request and returns that request's parsed result (2 requests
made, outcome not `noResult`). -/
theorem empty_response_counterexample :
    describe_picture [cvEmpty200, cvGood]
      = (DescOutcome.json descDog, 2, []) ∧
    (describe_picture [cvEmpty200, cvGood]).2.1 ≠ 1 ∧
    (describe_picture [cvEmpty200, cvGood]).1 ≠ DescOutcome.noResult := by
  refine ⟨rfl, by decide, by decide⟩

/-- C4 amended.  On a 200 response with a zero `content-length` header the
result stays unset and the loop continues to retry — one more request is
issued and the retry counter is not incremented. -/
theorem empty_response_continues_loop (k : Nat) (r : CVResponse)
    (rs : List CVResponse) (hst : r.status = 200)
    (hcl : r.contentLength = some 0) (hk : k < 15) :
    describeLoop k (r :: rs) =
      ((describeLoop k rs).1, (describeLoop k rs).2.1 + 1,
       (describeLoop k rs).2.2) :=
  describeLoop_empty200 k r rs hst hcl hk

/-- Witness for the amended C4. -/
theorem empty_response_continues_loop_witness :
    describeLoop 0 [cvEmpty200] =
      ((describeLoop 0 ([] : List CVResponse)).1,
       (describeLoop 0 ([] : List CVResponse)).2.1 + 1,
       (describeLoop 0 ([] : List CVResponse)).2.2) :=
  empty_response_continues_loop 0 cvEmpty200 [] (by decide) (by decide)
    (by decide)

/-- C5.  When the vision endpoint answers 429 on every attempt,
`describe_picture` makes exactly 15 HTTP requests, sleeping 2 time units
after each, and returns no result — with 16 (or more) scripted 429s, no
16th request is issued. -/
theorem rate_limit_retry_budget (rs : List CVResponse)
    (h429 : ∀ r ∈ rs, r.status = 429) (hlen : 15 ≤ rs.length) :
    describe_picture rs = (DescOutcome.noResult, 15, List.replicate 15 2) := by
  have h := describeLoop_429 rs 0 h429 (by simpa using hlen)
  simpa using h

/-- Witness for C5: 16 consecutive 429 responses. -/
theorem rate_limit_retry_budget_witness :
    (∀ r ∈ List.replicate 16 cv429, r.status = 429) ∧
    15 ≤ (List.replicate 16 cv429).length ∧
    describe_picture (List.replicate 16 cv429)
      = (DescOutcome.noResult, 15, List.replicate 15 2) :=
  ⟨by decide, by decide,
   rate_limit_retry_budget (List.replicate 16 cv429) (by decide) (by decide)⟩

/-- C6.  When every orchestration cycle fails (every scripted description
is flagged as adult content) and the scripts hold enough entries,
`get_picture_and_description` runs exactly `max_retries + 1` cycles and
ends with the retries-exceeded exception. -/
theorem orchestrator_retries_exceeded (wf : Wordfilter) (max_retries : Nat)
    (pages : List Page) (descrs : List (Option DescResult))
    (hpages : ∀ p ∈ pages, (get_random_picture wf p).isSome = true)
    (hplen : max_retries + 1 ≤ pages.length)
    (hdlen : max_retries + 1 ≤ descrs.length)
    (hadult : ∀ d ∈ descrs, ∃ a, d = some a ∧ a.adult.isAdultContent = true) :
    get_picture_and_description wf max_retries pages descrs
      = (Outcome.retriesExceeded, max_retries + 1) :=
  orchLoop_all_adult (max_retries + 1) pages descrs hpages hplen hdlen hadult

/-- Witness for C6: `max_retries = 5` gives exactly 6 cycles. -/
theorem orchestrator_retries_exceeded_witness :
    get_picture_and_description wf0 5 (List.replicate 6 pageOk)
      (List.replicate 6 (some descAdult)) = (Outcome.retriesExceeded, 6) :=
  orchestrator_retries_exceeded wf0 5 (List.replicate 6 pageOk)
    (List.replicate 6 (some descAdult))
    (by decide) (by decide) (by decide)
    (fun d hd => ⟨descAdult, List.eq_of_mem_replicate hd, rfl⟩)

/-- C7.  Gender neutralization replaces the whitespace-split tokens
woman/women/man/men case-insensitively and rejoins with single spaces; in
particular on the spec's example, on a mixed-case variant, and on a
variant with repeated whitespace; and the result never depends on the
input's case. -/
theorem gender_neutralize_replacements :
    gender_neutralize ("a woman and two men").data
      = ("a person and two people").data ∧
    gender_neutralize ("A WOMAN And Two MEN").data
      = ("a person and two people").data ∧
    gender_neutralize ("a   woman  and two men").data
      = ("a person and two people").data ∧
    ∀ s : Str, gender_neutralize (lowerStr s) = gender_neutralize s :=
  ⟨by decide, by decide, by decide, gender_neutralize_lower⟩

/-- C8.  Gender neutralization is idempotent. -/
theorem gender_neutralize_idempotent (s : Str) :
    gender_neutralize (gender_neutralize s) = gender_neutralize s :=
  gender_neutralize_idem s

/-- C9.  `get_random_picture` accepts a candidate only when its media type
is `BITMAP`, its width and height each exceed 50, and its URL ends
case-insensitively in a supported format; width 40 is always rejected, a
`.bmp` URL is always rejected, and a `.JPG` URL passes the format
filter. -/
theorem image_candidate_filters :
    (∀ (wf : Wordfilter) (page : Page) (info : ImageInfo),
      get_random_picture wf page = some info →
      info = page.imageinfo ∧ info.mediatype = ("BITMAP").data ∧
      50 < info.width ∧ 50 < info.height ∧
      supported_formats info.url = true) ∧
    (∀ (wf : Wordfilter) (page : Page), page.imageinfo.width = 40 →
      get_random_picture wf page = none) ∧
    (∀ (wf : Wordfilter) (page : Page),
      endsWith (".bmp").data (lowerStr page.imageinfo.url) = true →
      get_random_picture wf page = none) ∧
    (∀ u : Str, supported_formats (u ++ (".JPG").data) = true) :=
  ⟨fun _ _ _ h => get_random_picture_some h,
   get_random_picture_width40, get_random_picture_bmp, supported_formats_JPG⟩

/-- Witness for C9: each filter fact at a concrete candidate. -/
theorem image_candidate_filters_witness :
    (get_random_picture wf0 pageOk = some infoOk ∧
     infoOk = pageOk.imageinfo ∧ infoOk.mediatype = ("BITMAP").data ∧
     50 < infoOk.width ∧ 50 < infoOk.height ∧
     supported_formats infoOk.url = true) ∧
    (pageW40.imageinfo.width = 40 ∧ get_random_picture wf0 pageW40 = none) ∧
    (endsWith (".bmp").data (lowerStr pageBmp.imageinfo.url) = true ∧
     get_random_picture wf0 pageBmp = none) ∧
    supported_formats (("http://commons.example/cat").data ++ (".JPG").data)
      = true :=
  ⟨⟨by decide, image_candidate_filters.1 wf0 pageOk infoOk (by decide)⟩,
   ⟨by decide, image_candidate_filters.2.1 wf0 pageW40 (by decide)⟩,
   ⟨by decide, image_candidate_filters.2.2.1 wf0 pageBmp (by decide)⟩,
   image_candidate_filters.2.2.2 (("http://commons.example/cat").data)⟩

/-- C10.  The output of `gender_neutralize` is entirely lower-cased — every
character of the result, substituted or not, is fixed by lower-casing —
and in particular `neutralize("A Dog") = "a dog"`. -/
theorem gender_neutralize_lowercases :
    (∀ s : Str, lowerStr (gender_neutralize s) = gender_neutralize s) ∧
    gender_neutralize ("A Dog").data = ("a dog").data :=
  ⟨lowerStr_gender_neutralize, by decide⟩
